import Mathlib

/-!
Shallow embedding of `src/full_coverage_path_planner.cpp` (package
`full_coverage_path_planner`, namespace `full_coverage_path_planner`,
class `FullCoveragePathPlanner`).

Conventions of the embedding:
* C++ `double` arithmetic on positions, tile sizes and origins is modelled
  with exact rationals (`Rat`).  All position arithmetic performed by the
  source (`x * tile_size_ + grid_origin_.x + tile_size_ * 0.5`, clamping,
  flooring) is exact at this granularity.
* Yaw values handed to `createQuaternionMsgFromYaw` are kept symbolic in
  the inductive type `YawA`: every yaw the composer itself produces is an
  integer multiple of `pi/2` (represented by the integer factor), the
  start-connector yaw is an `atan2` of two exact offsets, and the start
  pose's caller-supplied orientation is opaque.
* The local variables `orientation` / member `previous_orientation_` are
  C++ doubles that only ever hold integer multiples of `pi/2`
  (`0`, `M_PI/2`, `M_PI`, `M_PI*1.5`, and copies thereof), so they are
  modelled as the integer number of quarter turns.  The reversal test of
  lines 147-148 compares `cos`/`sin` of those angles with `==`; on the
  reachable values the comparison behaves exactly as the ideal
  mathematical test (see `cosq`/`sinq` below).
* Reading `turn_around_directions_.back()` on an empty vector and
  popping it (lines 150/157) is undefined behaviour in C++; the model
  returns `none` for that execution.
* The uninitialized reads of `dx_next`/`dy_next` at the first list
  element and the dereference of the past-the-end iterator `it_next` at
  the last element (lines 85-113) are modelled as explicit junk-value
  parameters, so that claims about their (ir)relevance can be stated.
-/

/-- Grid coordinate pair, `Point_t` of the package (integer x/y). -/
structure Point_t where
  x : Int
  y : Int
deriving DecidableEq

/-- Symbolic value of a `geometry_msgs` quaternion as produced by this file:
`ofYaw k` is `createQuaternionMsgFromYaw(k * pi/2)`, `ofAtan2 dy dx` is
`createQuaternionMsgFromYaw(atan2(dy, dx))`, and `supplied v` is an opaque
caller-supplied orientation (the start pose's quaternion). -/
inductive YawA where
  | ofYaw (k : Int)
  | ofAtan2 (dy dx : Rat)
  | supplied (v : Rat)
deriving DecidableEq

/-- A `geometry_msgs::msg::PoseStamped` restricted to the fields this file
reads or writes: planar position and orientation.  The constant frame id
"map" is not modelled. -/
structure PoseStamped where
  x : Rat
  y : Rat
  yaw : YawA
deriving DecidableEq

/-- Turn direction entries of the member `turn_around_directions_`
(`eClockwise` / `eCounterClockwise` from the package header). -/
inductive TurnDir where
  | eClockwise
  | eCounterClockwise
deriving DecidableEq

/-- State threaded through `parsePointlist2Plan`: the plan vector being
appended to, the members `previous_goal_`, `previous_orientation_` and
`turn_around_directions_`, and the local variable `orientation`
(quarter-turn count). -/
structure CState where
  plan : List PoseStamped
  previous_goal : PoseStamped
  previous_orientation : Int
  orientation : Int
  turn_stack : List TurnDir
deriving DecidableEq

/-! ## GridBuilder: `parseGrid` (lines 194-255) -/

/-- Inputs of `parseGrid` read from the `nav2_costmap_2d::Costmap2D`:
cell counts, resolution, the flat cost byte array (`getCharMap`), and the
world coordinates that `mapToWorld(0, 0, ...)` writes (nav2-external
computation, kept opaque as two fields). -/
structure Costmap where
  resolution : Rat
  sizeX : Nat
  sizeY : Nat
  data : Nat → Nat
  worldOriginX : Rat
  worldOriginY : Rat

/-- Outputs of `parseGrid`: the local `node_size`, the members `tile_size_`
and `grid_origin_`, the out-parameters `scaled_start` and `grid`.  The
out-parameter `yaw_start` (tf2 `getAngle`, external) is not modelled; no
claim touches it. -/
structure ParseGridOut where
  node_size : Nat
  tile_size : Rat
  grid_origin_x : Rat
  grid_origin_y : Rat
  scaled_start : Point_t
  grid : List (List Bool)
deriving DecidableEq

/-- Modelled from the spec: `clamp(v, lo, hi)` from the package's common
header (not under `src/`), per spec section 4.1 step 4 it clamps a value
into `[lo, hi]`. -/
def clampQ (v lo hi : Rat) : Rat := max lo (min v hi)

/-- Occupancy scan for one tile (lines 238-249): row-major scan of the
`node_size x node_size` footprint at fine-cell origin `(iy, ix)`, clipped
to the map bounds, marking the tile occupied on the first cell with cost
strictly above the threshold.  The early exits (`break` and the
`node_occupied == false` loop condition) do not change the computed
boolean, only the number of cells inspected. -/
def nodeOccupied (cm : Costmap) (coverageCost : Nat) (node_size iy ix : Nat) : Bool :=
  (List.range node_size).any fun node_row =>
    decide (iy + node_row < cm.sizeY) &&
      (List.range node_size).any fun node_col =>
        decide (ix + node_col < cm.sizeX) &&
          decide (coverageCost < cm.data ((iy + node_row) * cm.sizeX + (ix + node_col)))

/-- The `parseGrid` member function (lines 194-255).  `coverageCost` is the
threshold constant `COVERAGE_COST` from the package header (not under
`src/`), kept as a parameter; `grid_size` is the requested tile edge
length; `(startX, startY)` is `real_start.pose.position`.  Returns `none`
exactly on the `return false` of line 211.  The C++ row/column loops of
lines 235-253 step `iy`/`ix` by `node_size` while below the map size; they
are rendered as a map over the tile indices `iy = tr * node_size`,
`ix = tc * node_size`, `tr < ceil(n_rows / node_size)`,
`tc < ceil(n_cols / node_size)` (equivalent since `node_size >= 1`). -/
def parseGrid (cm : Costmap) (coverageCost : Nat) (grid_size : Rat)
    (startX startY : Rat) : Option ParseGridOut :=
  let node_size : Nat := (max (Int.ceil (grid_size / cm.resolution)) 1).toNat
  if cm.sizeY = 0 ∨ cm.sizeX = 0 then
    none
  else
    let tile_size : Rat := (node_size : Rat) * cm.resolution
    let sx : Int :=
      Int.floor (clampQ ((startX - cm.worldOriginX) / tile_size) 0
        ((Int.floor ((cm.sizeX : Rat) / tile_size) : Rat)))
    let sy : Int :=
      Int.floor (clampQ ((startY - cm.worldOriginY) / tile_size) 0
        ((Int.floor ((cm.sizeY : Rat) / tile_size) : Rat)))
    let grid : List (List Bool) :=
      (List.range ((cm.sizeY + node_size - 1) / node_size)).map fun tr =>
        (List.range ((cm.sizeX + node_size - 1) / node_size)).map fun tc =>
          nodeOccupied cm coverageCost node_size (tr * node_size) (tc * node_size)
    some ⟨node_size, tile_size, cm.worldOriginX, cm.worldOriginY, ⟨sx, sy⟩, grid⟩

/-! ## PathComposer: `parsePointlist2Plan` (lines 61-192) -/

/-- Cosine of `k` quarter turns (the value the C++ `cos` comparison of
line 147 sees).  The doubles compared there are always exact quarter-turn
multiples as produced by lines 129-140; on those values the C++
`==`-comparison of `cos`/`sin` results agrees with this ideal integer
table (the double `cos(M_PI)` is exactly `-1.0`, `sin(M_PI/2)` exactly
`1.0`, `sin(M_PI*1.5)` exactly `-1.0`, and the residual near-zero values
`cos(M_PI/2)`, `sin(M_PI)`, `cos(M_PI*1.5)` are distinct from the exact
negations the branch tests, so each disjunct has the same truth value). -/
def cosq (k : Int) : Int :=
  if k % 4 = 0 then 1 else if k % 4 = 1 then 0 else if k % 4 = 2 then -1 else 0

/-- Sine of `k` quarter turns; see `cosq`. -/
def sinq (k : Int) : Int :=
  if k % 4 = 0 then 0 else if k % 4 = 1 then 1 else if k % 4 = 2 then 0 else -1

/-- The 180-degree-reversal test of lines 147-148:
`(cos(o) == -cos(p) && cos(o) != 0) || (sin(o) == -sin(p) && sin(o) != 0)`
on quarter-turn counts `o` (new orientation) and `p`
(`previous_orientation_`). -/
def reversalQ (o p : Int) : Bool :=
  (cosq o == -cosq p && cosq o != 0) || (sinq o == -sinq p && sinq o != 0)

/-- The `switch (move_dir_now)` of lines 125-141 updating the local
`orientation`: `dir::right = 1` sets yaw `0`, `dir::up = 2` sets `pi/2`,
`dir::left = -1` sets `pi`, `dir::down = -2` sets `pi*1.5`;
`dir::none = 0` and every unlisted value keep the previous orientation
(the direction codes are spelled out in the comment at lines 106-111). -/
def newOrientation (move_dir_now o : Int) : Int :=
  if move_dir_now = 1 then 0
  else if move_dir_now = 2 then 1
  else if move_dir_now = -1 then 2
  else if move_dir_now = -2 then 3
  else o

/-- World pose of a tile center with a quarter-turn yaw (lines 122-123:
`it->x * tile_size_ + grid_origin_.x + tile_size_ * 0.5`, same for y). -/
def tileCenterPose (tile_size ox oy : Rat) (g : Point_t) (k : Int) : PoseStamped :=
  ⟨(g.x : Rat) * tile_size + ox + tile_size * (1/2),
   (g.y : Rat) * tile_size + oy + tile_size * (1/2),
   .ofYaw k⟩

/-- The body of `if (do_publish)` (lines 120-165) for the current tile
`cur` and direction code `move_dir_now`; `isFirst` is `it ==
goalpoints.begin()`.  Returns `none` exactly when the reversal branch
reads `turn_around_directions_.back()` on an empty vector (undefined
behaviour in the C++). -/
def publish (tile_size ox oy : Rat) (cur : Point_t) (move_dir_now : Int)
    (isFirst : Bool) (st : CState) : Option CState :=
  let o := newOrientation move_dir_now st.orientation
  let new_goal := tileCenterPose tile_size ox oy cur o
  if isFirst then
    some { st with
      plan := st.plan ++ [new_goal]
      previous_goal := new_goal
      previous_orientation := o
      orientation := o }
  else if reversalQ o st.previous_orientation then
    match st.turn_stack.getLast? with
    | none => none
    | some d =>
      let mid : PoseStamped :=
        { st.previous_goal with
          yaw := .ofYaw (if d = TurnDir.eClockwise then o - 1 else o + 1) }
      let rep : PoseStamped := { st.previous_goal with yaw := .ofYaw o }
      some { plan := st.plan ++ [mid, rep, new_goal]
             previous_goal := new_goal
             previous_orientation := o
             orientation := o
             turn_stack := st.turn_stack.dropLast }
  else
    let rep : PoseStamped := { st.previous_goal with yaw := .ofYaw o }
    some { st with
      plan := st.plan ++ [rep, new_goal]
      previous_goal := new_goal
      previous_orientation := o
      orientation := o }

/-- One iteration of the loop of lines 85-166: direction computation
(lines 91-113), the `do_publish` test (line 116) and the conditional
publish.  `next` is `*it_next` (for the last element this is the junk
value read through the past-the-end iterator); `j1x`/`j1y` are the values
of the uninitialized locals `dx_next`/`dy_next` read when `it ==
goalpoints.begin()`. -/
def stepPub (tile_size ox oy : Rat) (j1x j1y : Int) (isFirst : Bool)
    (prev cur next : Point_t) (isLast : Bool) (st : CState) : Option CState :=
  let dx_now := if isFirst then next.x - cur.x else cur.x - prev.x
  let dy_now := if isFirst then next.y - cur.y else cur.y - prev.y
  let dx_next := if isFirst then j1x else next.x - cur.x
  let dy_next := if isFirst then j1y else next.y - cur.y
  let move_dir_now := dx_now + dy_now * 2
  let move_dir_next := dx_next + dy_next * 2
  if move_dir_next ≠ move_dir_now ∨ isFirst = true ∨ isLast = true then
    publish tile_size ox oy cur move_dir_now isFirst st
  else
    some st

/-- The loop of lines 85-166 over the remaining goal points: `cur` is
`*it`, `prev` is `*it_prev` (unused while `isFirst`), `rest` the list
elements after `it`, and `endJunk` the junk value obtained by
dereferencing the past-the-end iterator at the last element. -/
def composeLoop (tile_size ox oy : Rat) (endJunk : Point_t) (j1x j1y : Int) :
    Bool → Point_t → Point_t → List Point_t → CState → Option CState
  | isFirst, prev, cur, [], st =>
      stepPub tile_size ox oy j1x j1y isFirst prev cur endJunk true st
  | isFirst, prev, cur, c2 :: r2, st =>
      match stepPub tile_size ox oy j1x j1y isFirst prev cur c2 false st with
      | none => none
      | some st1 => composeLoop tile_size ox oy endJunk j1x j1y false cur c2 r2 st1

/-- The tile-derived portion of `parsePointlist2Plan`: the branch on
`goalpoints.size()` of lines 73-167, before the connector/start insertion.
The empty case is the early `return` of line 75, the singleton case is
lines 76-83 (one waypoint at the tile center with yaw 0; the members are
untouched), the general case runs the loop from the first element.
`prevGoal0`/`prevOrient0`/`stack` are the values of the instance members
`previous_goal_`/`previous_orientation_`/`turn_around_directions_` on
entry, and the plan vector is assumed empty on entry. -/
def composeTile (tile_size ox oy : Rat) (endJunk : Point_t) (j1x j1y : Int)
    (prevGoal0 : PoseStamped) (prevOrient0 : Int) (stack : List TurnDir)
    (goalpoints : List Point_t) : Option CState :=
  match goalpoints with
  | [] => some ⟨[], prevGoal0, prevOrient0, 0, stack⟩
  | [g] => some ⟨[tileCenterPose tile_size ox oy g 0], prevGoal0, prevOrient0, 0, stack⟩
  | g0 :: g1 :: r =>
      composeLoop tile_size ox oy endJunk j1x j1y true g0 g0 (g1 :: r)
        ⟨[], prevGoal0, prevOrient0, 0, stack⟩

/-- The start-connector tolerance `100.0 * FLT_EPSILON` of line 174
(`FLT_EPSILON` is `2^-23`). -/
def eps100 : Rat := 100 / 8388608

/-- Lines 169-188: compare the first plan point with the start pose; when
they are not colocated within `eps100` on both axes, insert a copy of the
first plan point and a copy of the start pose at the front, both with the
`atan2(dy, dx)` heading; finally insert the start pose itself at the
front.  The empty-plan case would dereference `plan.begin()` (line 171)
on an empty vector; it is unreachable from `parsePointlist2Plan` because
every non-empty goal list publishes at least the first tile. -/
def postlude (start : PoseStamped) (p : List PoseStamped) : List PoseStamped :=
  match p with
  | [] => [start]
  | h :: _ =>
      let dy := h.y - start.y
      let dx := h.x - start.x
      if |dy| < eps100 ∧ |dx| < eps100 then
        start :: p
      else
        start :: { start with yaw := .ofAtan2 dy dx } ::
          { h with yaw := .ofAtan2 dy dx } :: p

/-- Application of `postlude` to the plan inside the composer state. -/
def finalize (start : PoseStamped) (st : CState) : CState :=
  { st with plan := postlude start st.plan }

/-- The `parsePointlist2Plan` member function (lines 61-192).  The result
carries the final plan vector together with the post-call values of the
members `previous_goal_`, `previous_orientation_` and
`turn_around_directions_`.  For an empty goal list the function returns at
line 75, before the start-pose insertion of line 188. -/
def parsePointlist2Plan (tile_size ox oy : Rat) (endJunk : Point_t)
    (j1x j1y : Int) (prevGoal0 : PoseStamped) (prevOrient0 : Int)
    (stack : List TurnDir) (start : PoseStamped) (goalpoints : List Point_t) :
    Option CState :=
  match goalpoints with
  | [] => composeTile tile_size ox oy endJunk j1x j1y prevGoal0 prevOrient0 stack []
  | _ =>
      (composeTile tile_size ox oy endJunk j1x j1y prevGoal0 prevOrient0 stack
        goalpoints).map (finalize start)

/-! ## Reversal counting (specification-side, for the stack-discipline claim) -/

/-- Number of 180-degree reversals one loop iteration detects (0 or 1),
together with the updated `orientation` / `previous_orientation_` pair;
mirrors `stepPub` but is independent of the turn stack. -/
def countStep (j1x j1y : Int) (isFirst : Bool) (prev cur next : Point_t)
    (isLast : Bool) (o p : Int) : Nat × Int × Int :=
  let dx_now := if isFirst then next.x - cur.x else cur.x - prev.x
  let dy_now := if isFirst then next.y - cur.y else cur.y - prev.y
  let dx_next := if isFirst then j1x else next.x - cur.x
  let dy_next := if isFirst then j1y else next.y - cur.y
  let move_dir_now := dx_now + dy_now * 2
  let move_dir_next := dx_next + dy_next * 2
  if move_dir_next ≠ move_dir_now ∨ isFirst = true ∨ isLast = true then
    let o' := newOrientation move_dir_now o
    (if isFirst then 0 else if reversalQ o' p then 1 else 0, o', o')
  else
    (0, o, p)

/-- Total number of 180-degree reversals the loop detects on the given
goal points; mirrors `composeLoop` but is independent of the turn stack. -/
def composeCount (endJunk : Point_t) (j1x j1y : Int) :
    Bool → Point_t → Point_t → List Point_t → Int → Int → Nat
  | isFirst, prev, cur, [], o, p =>
      (countStep j1x j1y isFirst prev cur endJunk true o p).1
  | isFirst, prev, cur, c2 :: r2, o, p =>
      let t := countStep j1x j1y isFirst prev cur c2 false o p
      t.1 + composeCount endJunk j1x j1y false cur c2 r2 t.2.1 t.2.2

/-- Number of 180-degree reversals `parsePointlist2Plan` detects on a goal
list (0 when fewer than two points). -/
def planReversals (endJunk : Point_t) (j1x j1y : Int) (prevOrient0 : Int)
    (goalpoints : List Point_t) : Nat :=
  match goalpoints with
  | g0 :: g1 :: r => composeCount endJunk j1x j1y true g0 g0 (g1 :: r) 0 prevOrient0
  | _ => 0

/-! ## Straight-line visit lists -/

/-- The visit list `p, p + d, p + 2 d, ...` of length `n`. -/
def straightLine (p d : Point_t) (n : Nat) : List Point_t :=
  (List.range n).map fun (i : Nat) => ⟨p.x + (i : Int) * d.x, p.y + (i : Int) * d.y⟩

/-- The four axis-aligned unit steps between adjacent tiles. -/
def unitDirs : List Point_t := [⟨1, 0⟩, ⟨0, 1⟩, ⟨-1, 0⟩, ⟨0, -1⟩]

/-! ## GridBuilder claims -/

/-- C7: parseGrid returns false (InvalidMap) iff the map has zero rows or
zero columns; otherwise it returns true. -/
theorem parseGrid_none_iff_empty_map (cm : Costmap) (coverageCost : Nat)
    (grid_size startX startY : Rat) :
    parseGrid cm coverageCost grid_size startX startY = none ↔
      (cm.sizeY = 0 ∨ cm.sizeX = 0) := by
  simp only [parseGrid]
  split
  · simp_all
  · simp_all

/-- C5: node_size = max(1, ceil(grid_size / resolution)) and
tile_size = node_size * resolution. -/
theorem parseGrid_node_size_spec (cm : Costmap) (coverageCost : Nat)
    (grid_size startX startY : Rat) (out : ParseGridOut)
    (hres : 0 < cm.resolution)
    (h : parseGrid cm coverageCost grid_size startX startY = some out) :
    (out.node_size : Int) = max 1 (Int.ceil (grid_size / cm.resolution)) ∧
      1 ≤ out.node_size ∧
      out.tile_size = (out.node_size : Rat) * cm.resolution := by
  simp only [parseGrid] at h
  split at h
  · exact absurd h (by simp)
  · rw [Option.some.injEq] at h
    subst h
    refine ⟨?_, ?_, rfl⟩
    · rcases le_total (Int.ceil (grid_size / cm.resolution)) 1 with hc | hc
      · simp [max_eq_right hc, max_eq_left hc]
      · rw [max_eq_left hc, max_eq_right hc, Int.toNat_of_nonneg (by omega)]
    · rcases le_total (Int.ceil (grid_size / cm.resolution)) 1 with hc | hc
      · simp [max_eq_right hc]
      · dsimp only
        rw [max_eq_left hc]
        simpa using Int.toNat_le_toNat hc

/-- Floor of a value clamped below at 0 is nonnegative. -/
theorem clampQ_floor_nonneg (v hi : Rat) : 0 ≤ Int.floor (clampQ v 0 hi) :=
  Int.floor_nonneg.mpr (le_max_left 0 (min v hi))

/-- Floor of a value clamped above at an integer stays below that integer. -/
theorem clampQ_floor_le (v : Rat) (m : Int) (hm : 0 ≤ m) :
    Int.floor (clampQ v 0 (m : Rat)) ≤ m := by
  have h1 : clampQ v 0 (m : Rat) ≤ (m : Rat) :=
    max_le (by exact_mod_cast hm) (min_le_right _ _)
  calc Int.floor (clampQ v 0 (m : Rat)) ≤ Int.floor ((m : Rat)) := Int.floor_mono h1
    _ = m := Int.floor_intCast m

/-- C6: the scaled start coordinates lie within
[0, floor(axis_cell_count / tile_size)] on each axis, for every start pose. -/
theorem parseGrid_scaled_start_in_bounds (cm : Costmap) (coverageCost : Nat)
    (grid_size startX startY : Rat) (out : ParseGridOut)
    (hres : 0 < cm.resolution)
    (h : parseGrid cm coverageCost grid_size startX startY = some out) :
    0 ≤ out.scaled_start.x ∧
      out.scaled_start.x ≤ Int.floor ((cm.sizeX : Rat) / out.tile_size) ∧
      0 ≤ out.scaled_start.y ∧
      out.scaled_start.y ≤ Int.floor ((cm.sizeY : Rat) / out.tile_size) := by
  simp only [parseGrid] at h
  split at h
  · exact absurd h (by simp)
  · rw [Option.some.injEq] at h
    subst h
    dsimp only
    have hns : (0 : Rat) < ((max (Int.ceil (grid_size / cm.resolution)) 1).toNat : Rat) := by
      have h1 : 1 ≤ (max (Int.ceil (grid_size / cm.resolution)) 1).toNat := by
        have := le_max_right (Int.ceil (grid_size / cm.resolution)) 1
        omega
      exact_mod_cast Nat.lt_of_lt_of_le Nat.zero_lt_one h1
    have ht : (0 : Rat) <
        ((max (Int.ceil (grid_size / cm.resolution)) 1).toNat : Rat) * cm.resolution :=
      mul_pos hns hres
    exact ⟨clampQ_floor_nonneg _ _,
      clampQ_floor_le _ _ (Int.floor_nonneg.mpr (div_nonneg (Nat.cast_nonneg _) ht.le)),
      clampQ_floor_nonneg _ _,
      clampQ_floor_le _ _ (Int.floor_nonneg.mpr (div_nonneg (Nat.cast_nonneg _) ht.le))⟩

/-- C4: a tile of the coarse grid is occupied iff some fine cell in its
boundary-clipped footprint has cost strictly above the threshold. -/
theorem parseGrid_tile_occupied_iff (cm : Costmap) (coverageCost : Nat)
    (grid_size startX startY : Rat) (out : ParseGridOut)
    (h : parseGrid cm coverageCost grid_size startX startY = some out)
    (tr tc : Nat) (htr : tr < out.grid.length)
    (htc : tc < (out.grid.getD tr []).length) :
    ((out.grid.getD tr []).getD tc false = true ↔
      ∃ r < out.node_size, tr * out.node_size + r < cm.sizeY ∧
        ∃ c < out.node_size, tc * out.node_size + c < cm.sizeX ∧
          coverageCost <
            cm.data ((tr * out.node_size + r) * cm.sizeX + (tc * out.node_size + c))) := by
  simp only [parseGrid] at h
  split at h
  · exact absurd h (by simp)
  · rw [Option.some.injEq] at h
    subst h
    dsimp only at htr htc ⊢
    rw [List.getD_eq_getElem _ _ htr] at htc ⊢
    simp only [List.getElem_map, List.getElem_range] at htc ⊢
    simp only [List.length_map, List.length_range] at htc
    rw [List.getD_eq_getElem _ _ (by simpa using htc)]
    simp only [List.getElem_map, List.getElem_range]
    simp only [nodeOccupied, List.any_eq_true, List.mem_range, Bool.and_eq_true,
      decide_eq_true_eq]

def cmW : Costmap := ⟨1, 3, 2, fun _ => 0, 0, 0⟩

def outW : ParseGridOut := ⟨2, 2, 0, 0, ⟨0, 0⟩, [[false, false]]⟩

theorem parseGridW : parseGrid cmW 128 2 0 0 = some outW := by
  have hr1 : List.range 1 = [0] := by decide
  have hr2 : List.range 2 = [0, 1] := by decide
  have hc : Int.ceil ((2 : Rat) / (1 : Rat)) = 2 := by norm_num
  simp only [cmW, outW, parseGrid, hc]
  have ht : Int.toNat 2 = 2 := rfl
  norm_num [clampQ, nodeOccupied, hr1, hr2, ht]

theorem parseGrid_node_size_spec_witness :
    ((outW.node_size : Int) = max 1 (Int.ceil ((2 : Rat) / cmW.resolution)) ∧
      1 ≤ outW.node_size ∧
      outW.tile_size = (outW.node_size : Rat) * cmW.resolution) :=
  parseGrid_node_size_spec cmW 128 2 0 0 outW (by norm_num [cmW]) parseGridW

theorem parseGrid_scaled_start_in_bounds_witness :
    0 ≤ outW.scaled_start.x ∧
      outW.scaled_start.x ≤ Int.floor ((cmW.sizeX : Rat) / outW.tile_size) ∧
      0 ≤ outW.scaled_start.y ∧
      outW.scaled_start.y ≤ Int.floor ((cmW.sizeY : Rat) / outW.tile_size) :=
  parseGrid_scaled_start_in_bounds cmW 128 2 0 0 outW (by norm_num [cmW]) parseGridW

theorem parseGrid_tile_occupied_iff_witness :
    ((outW.grid.getD 0 []).getD 0 false = true ↔
      ∃ r < outW.node_size, 0 * outW.node_size + r < cmW.sizeY ∧
        ∃ c < outW.node_size, 0 * outW.node_size + c < cmW.sizeX ∧
          128 < cmW.data ((0 * outW.node_size + r) * cmW.sizeX + (0 * outW.node_size + c))) :=
  parseGrid_tile_occupied_iff cmW 128 2 0 0 outW parseGridW 0 0 (by decide) (by decide)

/-! ## PathComposer claims -/

/-- C3: at a published waypoint whose new heading is antiparallel to the
previously emitted heading, the publish step of `parsePointlist2Plan`
inserts one extra waypoint at the previous position whose heading is the
new heading minus a quarter turn when the most recent pending-turn entry
is clockwise and plus a quarter turn when it is counter-clockwise, and
removes that entry from the back of the stack. -/
theorem publish_reversal_step (tile_size ox oy : Rat) (cur : Point_t)
    (move_dir_now : Int) (st : CState) (ts : List TurnDir) (d : TurnDir)
    (hstack : st.turn_stack = ts ++ [d])
    (hrev : reversalQ (newOrientation move_dir_now st.orientation)
      st.previous_orientation = true) :
    publish tile_size ox oy cur move_dir_now false st = some
      { plan := st.plan ++
          [{ st.previous_goal with
              yaw := YawA.ofYaw (if d = TurnDir.eClockwise then
                  newOrientation move_dir_now st.orientation - 1
                else
                  newOrientation move_dir_now st.orientation + 1) },
           { st.previous_goal with
              yaw := YawA.ofYaw (newOrientation move_dir_now st.orientation) },
           tileCenterPose tile_size ox oy cur
             (newOrientation move_dir_now st.orientation)],
        previous_goal :=
          tileCenterPose tile_size ox oy cur
            (newOrientation move_dir_now st.orientation),
        previous_orientation := newOrientation move_dir_now st.orientation,
        orientation := newOrientation move_dir_now st.orientation,
        turn_stack := ts } := by
  simp only [publish, hrev, hstack, List.getLast?_concat, List.dropLast_concat,
    Bool.false_eq_true, if_false, if_true]

/-- Witness for `publish_reversal_step`: a concrete left-move after a
right-move (new orientation pi, previous 0) with a clockwise entry on the
stack. -/
theorem publish_reversal_step_witness :
    ((⟨[], ⟨0, 0, .ofYaw 0⟩, 0, 0, [TurnDir.eClockwise]⟩ : CState).turn_stack =
        [] ++ [TurnDir.eClockwise]) ∧
    (reversalQ (newOrientation (-1)
        (⟨[], ⟨0, 0, .ofYaw 0⟩, 0, 0, [TurnDir.eClockwise]⟩ : CState).orientation)
      (⟨[], ⟨0, 0, .ofYaw 0⟩, 0, 0,
        [TurnDir.eClockwise]⟩ : CState).previous_orientation = true) ∧
    publish 1 0 0 ⟨1, 1⟩ (-1) false ⟨[], ⟨0, 0, .ofYaw 0⟩, 0, 0, [TurnDir.eClockwise]⟩ =
      some { plan := [⟨0, 0, .ofYaw 1⟩, ⟨0, 0, .ofYaw 2⟩,
               tileCenterPose 1 0 0 ⟨1, 1⟩ 2],
             previous_goal := tileCenterPose 1 0 0 ⟨1, 1⟩ 2,
             previous_orientation := 2,
             orientation := 2,
             turn_stack := [] } := by
  refine ⟨rfl, by decide, ?_⟩
  have h := publish_reversal_step 1 0 0 ⟨1, 1⟩ (-1)
    ⟨[], ⟨0, 0, .ofYaw 0⟩, 0, 0, [TurnDir.eClockwise]⟩ [] TurnDir.eClockwise rfl (by decide)
  simpa using h

/-- C2 counterexample: for the empty goalpoints list the function returns
at line 75 before the start-pose insertion of line 188, so the produced
plan is empty and in particular does not begin with the start pose. -/
theorem parsePointlist2Plan_empty_no_start_counterexample :
    (parsePointlist2Plan 1 0 0 ⟨0, 0⟩ 0 0 ⟨0, 0, .ofYaw 0⟩ 0 [] ⟨5, 6, .supplied 0⟩ []).map
        (fun st => st.plan.head?) = some none ∧
    (parsePointlist2Plan 1 0 0 ⟨0, 0⟩ 0 0 ⟨0, 0, .ofYaw 0⟩ 0 [] ⟨5, 6, .supplied 0⟩ []).map
        (fun st => st.plan.head?) ≠ some (some ⟨5, 6, .supplied 0⟩) := by
  constructor
  · rfl
  · intro h
    simp [parsePointlist2Plan, composeTile] at h

/-- C2 amended: for every non-empty goalpoints list, whenever
`parsePointlist2Plan` completes, the produced plan begins with the literal
start pose. -/
theorem parsePointlist2Plan_starts_with_start (tile_size ox oy : Rat)
    (endJunk : Point_t) (j1x j1y : Int) (pg0 : PoseStamped) (po0 : Int)
    (stack : List TurnDir) (start : PoseStamped) (goalpoints : List Point_t)
    (out : CState) (hne : goalpoints ≠ [])
    (h : parsePointlist2Plan tile_size ox oy endJunk j1x j1y pg0 po0 stack start
      goalpoints = some out) :
    out.plan.head? = some start := by
  rcases goalpoints with _ | ⟨g, gs⟩
  · exact absurd rfl hne
  · simp only [parsePointlist2Plan, Option.map_eq_some'] at h
    obtain ⟨st, hst, rfl⟩ := h
    simp only [finalize]
    cases hp : st.plan with
    | nil => simp [postlude]
    | cons hph hpt =>
      simp only [postlude]
      split
      · rfl
      · rfl

/-- Witness for `parsePointlist2Plan_starts_with_start`: a singleton goal
list whose tile center coincides with the start position. -/
theorem parsePointlist2Plan_starts_with_start_witness :
    ([⟨0, 0⟩] : List Point_t) ≠ [] ∧
    (parsePointlist2Plan 2 (-1) (-1) ⟨0, 0⟩ 0 0 ⟨0, 0, .ofYaw 0⟩ 0 []
        ⟨0, 0, .supplied 0⟩ [⟨0, 0⟩]).map (fun st => st.plan.head?) =
      some (some ⟨0, 0, .supplied 0⟩) := by
  refine ⟨by decide, ?_⟩
  have h : parsePointlist2Plan 2 (-1) (-1) ⟨0, 0⟩ 0 0 ⟨0, 0, .ofYaw 0⟩ 0 []
      ⟨0, 0, .supplied 0⟩ [⟨0, 0⟩] =
      some ⟨[⟨0, 0, .supplied 0⟩, ⟨0, 0, .ofYaw 0⟩], ⟨0, 0, .ofYaw 0⟩, 0, 0, []⟩ := by
    norm_num [parsePointlist2Plan, composeTile, finalize, postlude, tileCenterPose, eps100]
  have h2 := parsePointlist2Plan_starts_with_start 2 (-1) (-1) ⟨0, 0⟩ 0 0
    ⟨0, 0, .ofYaw 0⟩ 0 [] ⟨0, 0, .supplied 0⟩ [⟨0, 0⟩] _ (by decide) h
  rw [h, Option.map_some']
  exact congrArg some h2

/-- C8 counterexample: for a singleton visit list whose tile center is far
from the start pose, the full output of `parsePointlist2Plan` has four
entries (start pose, two connector waypoints, tile waypoint), not exactly
one waypoint. -/
theorem parsePointlist2Plan_singleton_four_entries_counterexample :
    (parsePointlist2Plan 1 0 0 ⟨0, 0⟩ 0 0 ⟨0, 0, .ofYaw 0⟩ 0 [] ⟨9, 9, .supplied 0⟩
        [⟨0, 0⟩]).map (fun st => st.plan.length) = some 4 ∧ (4 : Nat) ≠ 1 := by
  constructor
  · have habs : |(17 : Rat) / 2| = 17 / 2 := abs_of_nonneg (by norm_num)
    norm_num [parsePointlist2Plan, composeTile, finalize, postlude, tileCenterPose,
      eps100, habs]
  · norm_num

/-- C8 amended: for every single-tile visit list the tile-derived portion
of the output is exactly one waypoint, placed at the tile's center, with
heading 0; the full output is that waypoint behind the prepended start
pose and optional connector waypoints. -/
theorem parsePointlist2Plan_singleton_tile_waypoint (tile_size ox oy : Rat)
    (endJunk : Point_t) (j1x j1y : Int) (pg0 : PoseStamped) (po0 : Int)
    (stack : List TurnDir) (start : PoseStamped) (g : Point_t) :
    ∃ st, composeTile tile_size ox oy endJunk j1x j1y pg0 po0 stack [g] = some st ∧
      st.plan.length = 1 ∧
      st.plan = [tileCenterPose tile_size ox oy g 0] ∧
      parsePointlist2Plan tile_size ox oy endJunk j1x j1y pg0 po0 stack start [g] =
        some (finalize start st) :=
  ⟨⟨[tileCenterPose tile_size ox oy g 0], pg0, po0, 0, stack⟩, rfl, rfl, rfl, rfl⟩

/-- Reduction of one loop iteration at the first element when it is not
also the last: publication is forced by `it == goalpoints.begin()`. -/
theorem stepPub_first_not_last (tile_size ox oy : Rat) (j1x j1y : Int)
    (prevP c next : Point_t) (st : CState) :
    stepPub tile_size ox oy j1x j1y true prevP c next false st =
      publish tile_size ox oy c ((next.x - c.x) + (next.y - c.y) * 2) true st := by
  simp only [stepPub]
  rw [if_pos (Or.inr (Or.inl trivial))]
  simp

/-- Reduction of one loop iteration at the last element when it is not the
first: publication is forced by `it == --goalpoints.end()`. -/
theorem stepPub_last (tile_size ox oy : Rat) (j1x j1y : Int)
    (prevP c next : Point_t) (st : CState) :
    stepPub tile_size ox oy j1x j1y false prevP c next true st =
      publish tile_size ox oy c ((c.x - prevP.x) + (c.y - prevP.y) * 2) false st := by
  simp only [stepPub]
  rw [if_pos (Or.inr (Or.inr trivial))]
  simp

/-- The loop result does not depend on the junk values (the uninitialized
`dx_next`/`dy_next` at the first element and the past-the-end dereference
at the last element), as long as the first iteration is not also the last
(which holds whenever the goal list has at least two elements). -/
theorem composeLoop_junk_indep (tile_size ox oy : Rat) (j2 j2' : Point_t)
    (j1x j1y j1x' j1y' : Int) :
    ∀ (rest : List Point_t) (isFirst : Bool) (prevP c : Point_t) (st : CState),
      (isFirst = true → rest ≠ []) →
      composeLoop tile_size ox oy j2 j1x j1y isFirst prevP c rest st =
        composeLoop tile_size ox oy j2' j1x' j1y' isFirst prevP c rest st := by
  intro rest
  induction rest with
  | nil =>
    intro isFirst prevP c st hfl
    cases isFirst with
    | true => exact absurd rfl (fun h => hfl h rfl)
    | false =>
      show stepPub tile_size ox oy j1x j1y false prevP c j2 true st =
        stepPub tile_size ox oy j1x' j1y' false prevP c j2' true st
      rw [stepPub_last, stepPub_last]
  | cons c2 r2 ih =>
    intro isFirst prevP c st hfl
    cases isFirst with
    | true =>
      simp only [composeLoop]
      rw [stepPub_first_not_last, stepPub_first_not_last]
      cases publish tile_size ox oy c ((c2.x - c.x) + (c2.y - c.y) * 2) true st with
      | none => rfl
      | some st1 => exact ih false c c2 st1 (by simp)
    | false =>
      simp only [composeLoop]
      have hst : stepPub tile_size ox oy j1x j1y false prevP c c2 false st =
          stepPub tile_size ox oy j1x' j1y' false prevP c c2 false st := rfl
      rw [hst]
      cases stepPub tile_size ox oy j1x' j1y' false prevP c c2 false st with
      | none => rfl
      | some st1 => exact ih false c c2 st1 (by simp)

/-- C9: for goal lists of length at least two, the plan emitted by
`parsePointlist2Plan` is independent of the junk values read through the
uninitialized `dx_next`/`dy_next` at the first tile and through the
past-the-end iterator dereference at the last tile. -/
theorem parsePointlist2Plan_junk_independent (tile_size ox oy : Rat)
    (j2 j2' : Point_t) (j1x j1y j1x' j1y' : Int) (pg0 : PoseStamped) (po0 : Int)
    (stack : List TurnDir) (start : PoseStamped) (goalpoints : List Point_t)
    (hlen : 2 ≤ goalpoints.length) :
    parsePointlist2Plan tile_size ox oy j2 j1x j1y pg0 po0 stack start goalpoints =
      parsePointlist2Plan tile_size ox oy j2' j1x' j1y' pg0 po0 stack start goalpoints := by
  rcases goalpoints with _ | ⟨g0, _ | ⟨g1, r⟩⟩
  · simp at hlen
  · simp at hlen
  · simp only [parsePointlist2Plan, composeTile]
    rw [composeLoop_junk_indep tile_size ox oy j2 j2' j1x j1y j1x' j1y'
      (g1 :: r) true g0 g0 ⟨[], pg0, po0, 0, stack⟩ (fun _ => by simp)]

/-- Witness for `parsePointlist2Plan_junk_independent`: two different junk
assignments on a two-tile list. -/
theorem parsePointlist2Plan_junk_independent_witness :
    2 ≤ ([⟨0, 0⟩, ⟨1, 0⟩] : List Point_t).length ∧
    parsePointlist2Plan 1 0 0 ⟨7, -3⟩ 5 9 ⟨0, 0, .ofYaw 0⟩ 0 [] ⟨0, 0, .supplied 0⟩
        [⟨0, 0⟩, ⟨1, 0⟩] =
      parsePointlist2Plan 1 0 0 ⟨-2, 11⟩ (-8) 4 ⟨0, 0, .ofYaw 0⟩ 0 [] ⟨0, 0, .supplied 0⟩
        [⟨0, 0⟩, ⟨1, 0⟩] :=
  ⟨by norm_num, parsePointlist2Plan_junk_independent 1 0 0 ⟨7, -3⟩ ⟨-2, 11⟩ 5 9 (-8) 4
    ⟨0, 0, .ofYaw 0⟩ 0 [] ⟨0, 0, .supplied 0⟩ [⟨0, 0⟩, ⟨1, 0⟩] (by norm_num)⟩

/-- Reduction of one loop iteration at a middle element whose incoming and
outgoing direction codes agree: nothing is published. -/
theorem stepPub_middle (tile_size ox oy : Rat) (j1x j1y : Int)
    (prevP c next : Point_t) (st : CState)
    (h : (next.x - c.x) + (next.y - c.y) * 2 = (c.x - prevP.x) + (c.y - prevP.y) * 2) :
    stepPub tile_size ox oy j1x j1y false prevP c next false st = some st := by
  simp only [stepPub]
  rw [if_neg (by simp [h])]

/-- Reduction of the publish body at the first element. -/
theorem publish_first (tile_size ox oy : Rat) (cur : Point_t)
    (move_dir_now : Int) (st : CState) :
    publish tile_size ox oy cur move_dir_now true st = some
      { st with
        plan := st.plan ++
          [tileCenterPose tile_size ox oy cur (newOrientation move_dir_now st.orientation)],
        previous_goal :=
          tileCenterPose tile_size ox oy cur (newOrientation move_dir_now st.orientation),
        previous_orientation := newOrientation move_dir_now st.orientation,
        orientation := newOrientation move_dir_now st.orientation } := by
  simp only [publish, if_true]

/-- Reduction of the publish body at a non-first element when no reversal
is detected: the previous goal is republished with the new orientation and
the new goal is appended. -/
theorem publish_not_reversal (tile_size ox oy : Rat) (cur : Point_t)
    (move_dir_now : Int) (st : CState)
    (h : reversalQ (newOrientation move_dir_now st.orientation)
      st.previous_orientation = false) :
    publish tile_size ox oy cur move_dir_now false st = some
      { st with
        plan := st.plan ++
          [{ st.previous_goal with
              yaw := YawA.ofYaw (newOrientation move_dir_now st.orientation) },
           tileCenterPose tile_size ox oy cur (newOrientation move_dir_now st.orientation)],
        previous_goal :=
          tileCenterPose tile_size ox oy cur (newOrientation move_dir_now st.orientation),
        previous_orientation := newOrientation move_dir_now st.orientation,
        orientation := newOrientation move_dir_now st.orientation } := by
  simp only [publish, h, Bool.false_eq_true, if_false]

/-- The reversal test never fires when the new orientation equals the
previous one. -/
theorem reversalQ_self (q : Int) : reversalQ q q = false := by
  have h4 : q % 4 = 0 ∨ q % 4 = 1 ∨ q % 4 = 2 ∨ q % 4 = 3 := by omega
  rcases h4 with h | h | h | h <;> simp [reversalQ, cosq, sinq, h]

/-- Orientation assigned to a unit-direction move. -/
def dirOrient (d : Point_t) : Int := newOrientation (d.x + d.y * 2) 0

/-- For a unit direction the orientation switch ignores the previous
orientation. -/
theorem newOrientation_unit (d : Point_t) (hd : d ∈ unitDirs) (o : Int) :
    newOrientation (d.x + d.y * 2) o = dirOrient d := by
  simp only [unitDirs, List.mem_cons, List.not_mem_nil, or_false] at hd
  rcases hd with rfl | rfl | rfl | rfl <;> rfl

/-- Unfolding of a straight-line visit list by its first element. -/
theorem straightLine_succ (p d : Point_t) (n : Nat) :
    straightLine p d (n + 1) = p :: straightLine ⟨p.x + d.x, p.y + d.y⟩ d n := by
  unfold straightLine
  rw [List.range_succ_eq_map, List.map_cons, List.map_map]
  have h0 : (⟨p.x + ((0 : Nat) : Int) * d.x, p.y + ((0 : Nat) : Int) * d.y⟩ : Point_t) = p := by
    simp
  rw [h0]
  congr 1
  apply List.map_congr_left
  intro i _
  simp only [Function.comp_apply, Point_t.mk.injEq]
  push_cast
  exact ⟨by ring, by ring⟩

/-- Along a straight line the loop publishes nothing at middle elements
and exactly the republished previous goal plus the final goal at the last
element, leaving the turn stack untouched. -/
theorem composeLoop_straight (tile_size ox oy : Rat) (endJunk : Point_t)
    (j1x j1y : Int) (d : Point_t) (hd : d ∈ unitDirs) :
    ∀ (m : Nat) (prevP c : Point_t) (st : CState),
      c.x - prevP.x = d.x → c.y - prevP.y = d.y →
      st.orientation = dirOrient d → st.previous_orientation = dirOrient d →
      ∃ st', composeLoop tile_size ox oy endJunk j1x j1y false prevP c
          (straightLine ⟨c.x + d.x, c.y + d.y⟩ d m) st = some st' ∧
        st'.plan.length = st.plan.length + 2 ∧ st'.turn_stack = st.turn_stack := by
  intro m
  induction m with
  | zero =>
    intro prevP c st hx hy ho hp
    have hmd : (c.x - prevP.x) + (c.y - prevP.y) * 2 = d.x + d.y * 2 := by
      rw [hx, hy]
    have hpub := publish_not_reversal tile_size ox oy c (d.x + d.y * 2) st
      (by rw [newOrientation_unit d hd, hp]; exact reversalQ_self _)
    rw [show straightLine ⟨c.x + d.x, c.y + d.y⟩ d 0 = [] from rfl]
    show ∃ st', stepPub tile_size ox oy j1x j1y false prevP c endJunk true st = some st' ∧ _
    rw [stepPub_last, hmd, hpub]
    refine ⟨_, rfl, ?_, rfl⟩
    simp
  | succ m ih =>
    intro prevP c st hx hy ho hp
    rw [straightLine_succ]
    simp only [composeLoop]
    rw [stepPub_middle tile_size ox oy j1x j1y prevP c ⟨c.x + d.x, c.y + d.y⟩ st
      (by rw [hx, hy]; ring_nf)]
    have h := ih c ⟨c.x + d.x, c.y + d.y⟩ st (by simp) (by simp) ho hp
    simpa using h

/-- C1 amended: on a straight-line visit list of length at least two the
loop emits exactly 3 tile-derived waypoints (first tile, republished copy
of the first tile's pose, last tile), independent of the length, and
leaves the turn stack unchanged. -/
theorem straight_line_three_tile_waypoints (p d : Point_t) (hd : d ∈ unitDirs)
    (n : Nat) (hn : 2 ≤ n) (tile_size ox oy : Rat) (endJunk : Point_t)
    (j1x j1y : Int) (pg0 : PoseStamped) (po0 : Int) (stack : List TurnDir) :
    ∃ st, composeTile tile_size ox oy endJunk j1x j1y pg0 po0 stack
        (straightLine p d n) = some st ∧
      st.plan.length = 3 ∧ st.turn_stack = stack := by
  obtain ⟨m, rfl⟩ : ∃ m, n = m + 2 := ⟨n - 2, by omega⟩
  rw [show m + 2 = (m + 1) + 1 from rfl, straightLine_succ, straightLine_succ]
  simp only [composeTile, composeLoop]
  rw [stepPub_first_not_last, publish_first]
  dsimp only
  have harg : ((⟨p.x + d.x, p.y + d.y⟩ : Point_t).x - p.x) +
      ((⟨p.x + d.x, p.y + d.y⟩ : Point_t).y - p.y) * 2 = d.x + d.y * 2 := by
    dsimp only
    ring
  obtain ⟨st', h1, h2, h3⟩ := composeLoop_straight tile_size ox oy endJunk j1x j1y d hd m
    p ⟨p.x + d.x, p.y + d.y⟩
    { plan := [] ++ [tileCenterPose tile_size ox oy p
        (newOrientation (((⟨p.x + d.x, p.y + d.y⟩ : Point_t).x - p.x) +
          ((⟨p.x + d.x, p.y + d.y⟩ : Point_t).y - p.y) * 2) 0)],
      previous_goal := tileCenterPose tile_size ox oy p
        (newOrientation (((⟨p.x + d.x, p.y + d.y⟩ : Point_t).x - p.x) +
          ((⟨p.x + d.x, p.y + d.y⟩ : Point_t).y - p.y) * 2) 0),
      previous_orientation := newOrientation (((⟨p.x + d.x, p.y + d.y⟩ : Point_t).x - p.x) +
        ((⟨p.x + d.x, p.y + d.y⟩ : Point_t).y - p.y) * 2) 0,
      orientation := newOrientation (((⟨p.x + d.x, p.y + d.y⟩ : Point_t).x - p.x) +
        ((⟨p.x + d.x, p.y + d.y⟩ : Point_t).y - p.y) * 2) 0,
      turn_stack := stack }
    (by simp) (by simp)
    (by dsimp only; rw [harg]; exact newOrientation_unit d hd 0)
    (by dsimp only; rw [harg]; exact newOrientation_unit d hd 0)
  refine ⟨st', h1, ?_, ?_⟩
  · rw [h2]
    simp
  · rw [h3]

/-- C1 counterexample: the two-element straight line emits 3 tile-derived
waypoints, not 2 (the loop unconditionally republishes the previous goal
at the final tile). -/
theorem straight_line_three_not_two_counterexample :
    (composeTile 1 0 0 ⟨0, 0⟩ 0 0 ⟨0, 0, .ofYaw 0⟩ 0 []
        (straightLine ⟨0, 0⟩ ⟨1, 0⟩ 2)).map (fun st => st.plan.length) = some 3 ∧
      (3 : Nat) ≠ 2 := by
  constructor
  · have hr2 : List.range 2 = [0, 1] := by decide
    have hsl : straightLine ⟨0, 0⟩ ⟨1, 0⟩ 2 = [⟨0, 0⟩, ⟨1, 0⟩] := by
      simp [straightLine, hr2]
    rw [hsl]
    norm_num [composeTile, composeLoop, stepPub, publish, newOrientation, reversalQ,
      cosq, sinq, tileCenterPose]
  · norm_num

/-- Witness for `straight_line_three_tile_waypoints` at the two-element
rightward line. -/
theorem straight_line_three_tile_waypoints_witness :
    (⟨1, 0⟩ : Point_t) ∈ unitDirs ∧ 2 ≤ 2 ∧
    ∃ st, composeTile 1 0 0 ⟨0, 0⟩ 0 0 ⟨0, 0, .ofYaw 0⟩ 0 []
        (straightLine ⟨0, 0⟩ ⟨1, 0⟩ 2) = some st ∧
      st.plan.length = 3 ∧ st.turn_stack = [] :=
  ⟨by decide, by norm_num,
    straight_line_three_tile_waypoints ⟨0, 0⟩ ⟨1, 0⟩ (by decide) 2 (by norm_num)
      1 0 0 ⟨0, 0⟩ 0 0 ⟨0, 0, .ofYaw 0⟩ 0 []⟩

/-- Success and stack effect of one publish: the first element and
non-reversal publishes never touch the stack; a detected reversal fails
exactly when the stack is empty and otherwise removes its last entry. -/
theorem publish_count (tile_size ox oy : Rat) (cur : Point_t) (move_dir_now : Int)
    (isFirst : Bool) (st : CState) :
    (publish tile_size ox oy cur move_dir_now isFirst st = none ↔
      st.turn_stack.length <
        (if isFirst then 0
         else if reversalQ (newOrientation move_dir_now st.orientation)
            st.previous_orientation then 1 else 0)) ∧
    ∀ st', publish tile_size ox oy cur move_dir_now isFirst st = some st' →
      st'.turn_stack = st.turn_stack.take (st.turn_stack.length -
        (if isFirst then 0
         else if reversalQ (newOrientation move_dir_now st.orientation)
            st.previous_orientation then 1 else 0)) ∧
      st'.orientation = newOrientation move_dir_now st.orientation ∧
      st'.previous_orientation = newOrientation move_dir_now st.orientation := by
  cases isFirst with
  | true =>
    rw [publish_first]
    refine ⟨by simp, ?_⟩
    intro st' h
    rw [Option.some.injEq] at h
    subst h
    simp [List.take_length]
  | false =>
    by_cases hrev : reversalQ (newOrientation move_dir_now st.orientation)
        st.previous_orientation = true
    · simp only [publish, hrev, Bool.false_eq_true, if_false, if_true]
      cases hstk : st.turn_stack.getLast? with
      | none =>
        rw [List.getLast?_eq_none_iff] at hstk
        refine ⟨by simp [hstk, hrev], ?_⟩
        intro st' h
        exact absurd h (by simp)
      | some d =>
        have hne : st.turn_stack ≠ [] := by
          intro h0
          rw [h0] at hstk
          exact absurd hstk (by simp)
        have hlen : 0 < st.turn_stack.length := List.length_pos.mpr hne
        refine ⟨by simp [hrev]; exact hne, ?_⟩
        intro st' h
        rw [Option.some.injEq] at h
        subst h
        refine ⟨?_, rfl, rfl⟩
        simp only [hrev, if_true]
        exact List.dropLast_eq_take st.turn_stack
    · rw [Bool.not_eq_true] at hrev
      rw [publish_not_reversal tile_size ox oy cur move_dir_now st hrev]
      refine ⟨by simp [hrev], ?_⟩
      intro st' h
      rw [Option.some.injEq] at h
      subst h
      simp [hrev, List.take_length]

/-- Success and stack effect of one loop iteration, phrased through the
stack-independent reversal counter `countStep`. -/
theorem stepPub_count (tile_size ox oy : Rat) (j1x j1y : Int) (isFirst : Bool)
    (prevP c next : Point_t) (isLast : Bool) (st : CState) :
    (stepPub tile_size ox oy j1x j1y isFirst prevP c next isLast st = none ↔
      st.turn_stack.length <
        (countStep j1x j1y isFirst prevP c next isLast st.orientation
          st.previous_orientation).1) ∧
    ∀ st', stepPub tile_size ox oy j1x j1y isFirst prevP c next isLast st = some st' →
      st'.turn_stack = st.turn_stack.take (st.turn_stack.length -
        (countStep j1x j1y isFirst prevP c next isLast st.orientation
          st.previous_orientation).1) ∧
      st'.orientation = (countStep j1x j1y isFirst prevP c next isLast st.orientation
        st.previous_orientation).2.1 ∧
      st'.previous_orientation = (countStep j1x j1y isFirst prevP c next isLast
        st.orientation st.previous_orientation).2.2 := by
  simp only [stepPub, countStep]
  by_cases hc : ((if isFirst = true then j1x else next.x - c.x) +
      (if isFirst = true then j1y else next.y - c.y) * 2 ≠
        (if isFirst = true then next.x - c.x else c.x - prevP.x) +
          (if isFirst = true then next.y - c.y else c.y - prevP.y) * 2 ∨
      isFirst = true ∨ isLast = true)
  · rw [if_pos hc, if_pos hc]
    exact publish_count tile_size ox oy c _ isFirst st
  · rw [if_neg hc, if_neg hc]
    refine ⟨by simp, ?_⟩
    intro st' h
    rw [Option.some.injEq] at h
    subst h
    simp [List.take_length]

/-- Success and stack effect of the whole loop: it fails exactly when the
reversal count exceeds the incoming stack length, and on success it has
consumed exactly that many entries from the back of the stack. -/
theorem composeLoop_count (tile_size ox oy : Rat) (endJunk : Point_t) (j1x j1y : Int) :
    ∀ (rest : List Point_t) (isFirst : Bool) (prevP c : Point_t) (st : CState),
      (composeLoop tile_size ox oy endJunk j1x j1y isFirst prevP c rest st = none ↔
        st.turn_stack.length <
          composeCount endJunk j1x j1y isFirst prevP c rest st.orientation
            st.previous_orientation) ∧
      ∀ st', composeLoop tile_size ox oy endJunk j1x j1y isFirst prevP c rest st =
          some st' →
        st'.turn_stack = st.turn_stack.take (st.turn_stack.length -
          composeCount endJunk j1x j1y isFirst prevP c rest st.orientation
            st.previous_orientation) := by
  intro rest
  induction rest with
  | nil =>
    intro isFirst prevP c st
    obtain ⟨h1, h2⟩ := stepPub_count tile_size ox oy j1x j1y isFirst prevP c endJunk true st
    exact ⟨h1, fun st' h => (h2 st' h).1⟩
  | cons c2 r2 ih =>
    intro isFirst prevP c st
    simp only [composeLoop, composeCount]
    obtain ⟨hnone, hsome⟩ := stepPub_count tile_size ox oy j1x j1y isFirst prevP c c2 false st
    cases hstep : stepPub tile_size ox oy j1x j1y isFirst prevP c c2 false st with
    | none =>
      have hk := hnone.mp hstep
      refine ⟨iff_of_true rfl (by omega), ?_⟩
      intro st' h
      exact absurd h (by simp)
    | some st1 =>
      have hle : ¬ st.turn_stack.length <
          (countStep j1x j1y isFirst prevP c c2 false st.orientation
            st.previous_orientation).1 := fun hlt => by
        rw [hnone.mpr hlt] at hstep
        exact absurd hstep (by simp)
      obtain ⟨hst1_stack, hst1_o, hst1_p⟩ := hsome st1 hstep
      obtain ⟨ihnone, ihsome⟩ := ih false c c2 st1
      rw [hst1_o, hst1_p] at ihnone ihsome
      have hst1_len : st1.turn_stack.length = st.turn_stack.length -
          (countStep j1x j1y isFirst prevP c c2 false st.orientation
            st.previous_orientation).1 := by
        rw [hst1_stack, List.length_take]
        omega
      constructor
      · rw [ihnone, hst1_len]
        constructor
        · intro hlt
          omega
        · intro hlt
          omega
      · intro st' h
        have hfin := ihsome st' h
        rw [hst1_len] at hfin
        rw [hst1_stack, List.take_take] at hfin
        rw [hfin]
        congr 1
        omega

/-- C10: the reversal branch of `parsePointlist2Plan` reads and removes
the last pending-turn entry with no emptiness check: the call is
well-defined exactly when the incoming stack holds at least as many
entries as the number of detected reversals, and on completion exactly
that many entries have been consumed from the back of the stack,
last-in-first-out. -/
theorem parsePointlist2Plan_turn_stack_discipline (tile_size ox oy : Rat)
    (endJunk : Point_t) (j1x j1y : Int) (pg0 : PoseStamped) (po0 : Int)
    (stack : List TurnDir) (start : PoseStamped) (goalpoints : List Point_t) :
    (parsePointlist2Plan tile_size ox oy endJunk j1x j1y pg0 po0 stack start
        goalpoints = none ↔
      stack.length < planReversals endJunk j1x j1y po0 goalpoints) ∧
    ∀ out, parsePointlist2Plan tile_size ox oy endJunk j1x j1y pg0 po0 stack start
        goalpoints = some out →
      out.turn_stack = stack.take (stack.length -
        planReversals endJunk j1x j1y po0 goalpoints) := by
  rcases goalpoints with _ | ⟨g0, _ | ⟨g1, r⟩⟩
  · refine ⟨by simp [parsePointlist2Plan, composeTile, planReversals], ?_⟩
    intro out h
    simp only [parsePointlist2Plan, composeTile, Option.some.injEq] at h
    subst h
    simp [planReversals, List.take_length]
  · refine ⟨by simp [parsePointlist2Plan, composeTile, planReversals, finalize], ?_⟩
    intro out h
    simp only [parsePointlist2Plan, composeTile, finalize, Option.map_some',
      Option.some.injEq] at h
    subst h
    simp [planReversals, List.take_length]
  · obtain ⟨hnone, hsome⟩ := composeLoop_count tile_size ox oy endJunk j1x j1y
      (g1 :: r) true g0 g0 ⟨[], pg0, po0, 0, stack⟩
    constructor
    · rw [show parsePointlist2Plan tile_size ox oy endJunk j1x j1y pg0 po0 stack start
          (g0 :: g1 :: r) = (composeLoop tile_size ox oy endJunk j1x j1y true g0 g0
            (g1 :: r) ⟨[], pg0, po0, 0, stack⟩).map (finalize start) from rfl,
        Option.map_eq_none']
      exact hnone
    · intro out h
      rw [show parsePointlist2Plan tile_size ox oy endJunk j1x j1y pg0 po0 stack start
          (g0 :: g1 :: r) = (composeLoop tile_size ox oy endJunk j1x j1y true g0 g0
            (g1 :: r) ⟨[], pg0, po0, 0, stack⟩).map (finalize start) from rfl,
        Option.map_eq_some'] at h
      obtain ⟨st, hst, rfl⟩ := h
      have := hsome st hst
      simpa [finalize, planReversals] using this

/-- Witness for `parsePointlist2Plan_turn_stack_discipline`: a path with
one 180-degree reversal and a one-entry stack completes. -/
theorem parsePointlist2Plan_turn_stack_discipline_witness :
    (parsePointlist2Plan 1 0 0 ⟨9, 9⟩ 0 0 ⟨0, 0, .ofYaw 0⟩ 0 [TurnDir.eClockwise]
        ⟨0, 0, .supplied 0⟩ [⟨0, 0⟩, ⟨1, 0⟩, ⟨0, 0⟩] = none ↔
      ([TurnDir.eClockwise] : List TurnDir).length <
        planReversals ⟨9, 9⟩ 0 0 0 [⟨0, 0⟩, ⟨1, 0⟩, ⟨0, 0⟩]) :=
  (parsePointlist2Plan_turn_stack_discipline 1 0 0 ⟨9, 9⟩ 0 0 ⟨0, 0, .ofYaw 0⟩ 0
    [TurnDir.eClockwise] ⟨0, 0, .supplied 0⟩ [⟨0, 0⟩, ⟨1, 0⟩, ⟨0, 0⟩]).1
